import Mathlib

/-!
Shallow embedding of the lifecycle core of the `happy` application runtime
(package `happy`): `Session`, `Service` / `serviceContainer`, `ServiceInfo`,
`ServiceLoader` and the `Cron` wrapper, together with theorems settling the
specification claims about them.

Go `error` values are modelled by the inductive `GoErr`; a nilable error is
`Option GoErr`.  Timestamps (`time.Time`) are natural numbers.  Go maps whose
iteration order is observable are modelled as association lists, the list
order standing for one possible iteration order, so theorems quantify over
all orders.
-/

/-- Go error values as built at the call sites of this package:
`errors.New`-style base errors, `fmt.Errorf("%w: ...", inner)` wrapping,
plain `fmt.Errorf` messages, and `errors.Join` aggregates. -/
inductive GoErr where
  | base (msg : String)
  | wrapped (inner : GoErr) (text : String)
  | plain (text : String)
  | joined (errs : List GoErr)

/-- Is the first character list an initial segment of the second? -/
def leadsWith : List Char → List Char → Bool
  | [], _ => true
  | _ :: _, [] => false
  | a :: as, b :: bs => a == b && leadsWith as bs

/-- Does the first character list occur contiguously inside the second? -/
def occursIn : List Char → List Char → Bool
  | needle, [] => leadsWith needle []
  | needle, b :: bs => leadsWith needle (b :: bs) || occursIn needle bs

/-- Substring test on strings (used to state that a rendered error message
mentions a service address). -/
def strContains (hay needle : String) : Bool :=
  occursIn needle.data hay.data

mutual
/-- Does the rendered message of a Go error mention the string `a`?
Follows the rendering of `fmt.Errorf` (wrapped message,
then `": "`, then the format text) and of `errors.Join`
(newline-separated constituent messages). -/
def GoErr.mentions : GoErr → String → Bool
  | .base m, a => strContains m a
  | .plain m, a => strContains m a
  | .wrapped inner t, a => GoErr.mentions inner a || strContains t a
  | .joined es, a => GoErr.mentionsList es a

/-- Lifts `mentions` over over the constituents of an `errors.Join`. -/
def GoErr.mentionsList : List GoErr → String → Bool
  | [], _ => false
  | e :: es, a => GoErr.mentions e a || GoErr.mentionsList es a
end

/-- Go `errors.Join`: drops nil entries; returns nil when all entries are nil,
otherwise an aggregate error over the non-nil entries. -/
def errorsJoin (errs : List (Option GoErr)) : Option GoErr :=
  let es := errs.filterMap id
  if es.isEmpty then none else some (GoErr.joined es)

/-- Modelled from the spec: the sentinel `ErrSessionDestroyed` ("session
destroyed"); its declaration is not among the provided sources, only its use
in `Session.Destroy`. -/
def ErrSessionDestroyed : GoErr := GoErr.base "session destroyed"

/-- Modelled from the spec: the sentinel `ErrService`; its declaration is not
among the provided sources, only its uses in the service loader. -/
def ErrService : GoErr := GoErr.base "service"

/-! ## Session (from the `Session` struct and its methods) -/

/-- State of a `Session`: the sticky error, and presence/released flags for
the readiness gate (`ready`/`readyFunc`), the OS-signal release
(`sig`/`sigRelease`), the event channel `evch` and the lazily allocated
`done` channel. -/
structure Session where
  err : Option GoErr
  readyPresent : Bool
  readyReleased : Bool
  sigPresent : Bool
  sigReleased : Bool
  evchPresent : Bool
  evchClosed : Bool
  donePresent : Bool
  doneClosed : Bool

/-- Source `Session.Err`: returns the session error, nil while alive. -/
def Session.Err (s : Session) : Option GoErr := s.err

/-- Source `Session.Destroy`: no-op when `Err()` is already non-nil; otherwise sets
the error (defaulting to `ErrSessionDestroyed` when the argument is nil),
releases the readiness gate if present, releases the OS-signal registration
if present, and closes the event channel and the done channel when present. -/
def Session.Destroy (s : Session) (e : Option GoErr) : Session :=
  if s.err.isSome then s
  else
    let s1 := { s with err := e }
    let s2 := if s1.readyPresent then { s1 with readyReleased := true } else s1
    let s3 := if s2.err.isNone then { s2 with err := some ErrSessionDestroyed } else s2
    let s4 := if s3.sigPresent then { s3 with sigReleased := true, sigPresent := false } else s3
    let s5 := if s4.evchPresent then { s4 with evchClosed := true } else s4
    if s5.donePresent then { s5 with doneClosed := true } else s5

/-- Source `Session.Done`: lazily allocates the done channel on first call. -/
def Session.DoneCall (s : Session) : Session :=
  if s.donePresent then s else { s with donePresent := true, doneClosed := false }

/-- Source `Session.start`: installs the readiness gate and the OS-signal
registration. -/
def Session.startSession (s : Session) : Session :=
  { s with readyPresent := true, sigPresent := true }

/-- A session as constructed by the (external) bootstrap: no error, the event
channel allocated, gates not yet installed. -/
def initialSession : Session :=
  { err := none, readyPresent := false, readyReleased := false,
    sigPresent := false, sigReleased := false,
    evchPresent := true, evchClosed := false,
    donePresent := false, doneClosed := false }

/-- Public operations on a session used to exhibit reachable states. -/
inductive SessionOp where
  | startOp
  | destroyOp (e : Option GoErr)
  | doneOp

/-- Run a sequence of session operations from a given state. -/
def runOps (s : Session) : List SessionOp → Session
  | [] => s
  | SessionOp.startOp :: ops => runOps s.startSession ops
  | SessionOp.destroyOp e :: ops => runOps (s.Destroy e) ops
  | SessionOp.doneOp :: ops => runOps s.DoneCall ops

/-- A reachable session state with a non-nil error and an unclosed done
channel: start the session, destroy it, then call `Done()`. -/
def sessionAfterLateDone : Session :=
  runOps initialSession
    [SessionOp.startOp, SessionOp.destroyOp (some (GoErr.base "boom")), SessionOp.doneOp]

theorem destroy_err_isSome (s : Session) (e : Option GoErr) :
    (s.Destroy e).err.isSome = true := by
  obtain ⟨er, rp, rr, sp, sr, ep, ec, dp, dc⟩ := s
  cases er <;> cases e <;> cases rp <;> cases sp <;> cases ep <;> cases dp <;> rfl

theorem destroy_noop_of_err (s : Session) (e : Option GoErr)
    (h : s.err.isSome = true) : s.Destroy e = s := by
  unfold Session.Destroy
  simp [h]

/-- C2: `Session.Destroy` is idempotent — when the session error is already
non-nil `Destroy` is a no-op, and destroying twice with different errors
leaves `Err()` equal to what a single `Destroy` with the first error
produces. -/
theorem session_destroy_idempotent (s : Session) (e1 e2 : Option GoErr) :
    (s.Err.isSome = true → s.Destroy e1 = s) ∧
    ((s.Destroy e1).Destroy e2).Err = (s.Destroy e1).Err := by
  refine ⟨fun h => destroy_noop_of_err s e1 h, ?_⟩
  have h1 : ((s.Destroy e1).Destroy e2) = s.Destroy e1 :=
    destroy_noop_of_err _ e2 (destroy_err_isSome s e1)
  rw [h1]

/-- Witness for C2 at a concrete destroyed session and two distinct errors. -/
theorem session_destroy_idempotent_witness :
    ((initialSession.Destroy (some (GoErr.base "first"))).Err.isSome = true) ∧
    (initialSession.Destroy (some (GoErr.base "first"))).Destroy (some (GoErr.base "second"))
      = initialSession.Destroy (some (GoErr.base "first")) ∧
    (((initialSession.Destroy (some (GoErr.base "first"))).Destroy
        (some (GoErr.base "second"))).Err
      = (initialSession.Destroy (some (GoErr.base "first"))).Err) := by
  refine ⟨destroy_err_isSome _ _, ?_, ?_⟩
  · exact (session_destroy_idempotent
      (initialSession.Destroy (some (GoErr.base "first")))
      (some (GoErr.base "second")) none).1 (destroy_err_isSome _ _)
  · exact (session_destroy_idempotent initialSession
      (some (GoErr.base "first")) (some (GoErr.base "second"))).2

/-- C6 counterexample: a `Done()` call after `Destroy` allocates a fresh done
channel that is never closed, so a reachable state has a non-nil error with
an open done channel — the termination invariant as stated is violated. -/
theorem session_termination_partial_cex :
    sessionAfterLateDone.err.isSome = true ∧
    sessionAfterLateDone.donePresent = true ∧
    sessionAfterLateDone.doneClosed = false := by
  refine ⟨rfl, rfl, rfl⟩

/-- C6 amended: `Destroy` itself is total — on a live session it sets a
non-nil error and, for every resource present at the time of the call
(readiness gate, signal registration, event channel, done channel), triggers
its release/close. -/
theorem session_destroy_total (s : Session) (e : Option GoErr)
    (h : s.err = none) :
    (s.Destroy e).err.isSome = true ∧
    (s.readyPresent = true → (s.Destroy e).readyReleased = true) ∧
    (s.sigPresent = true → (s.Destroy e).sigReleased = true) ∧
    (s.evchPresent = true → (s.Destroy e).evchClosed = true) ∧
    (s.donePresent = true → (s.Destroy e).doneClosed = true) := by
  obtain ⟨er, rp, rr, sp, sr, ep, ec, dp, dc⟩ := s
  obtain rfl : er = none := h
  cases e <;> cases rp <;> cases sp <;> cases ep <;> cases dp <;>
    refine ⟨rfl, fun hp => ?_, fun hp => ?_, fun hp => ?_, fun hp => ?_⟩ <;>
    first | rfl | simp at hp

/-- Witness for C6 amended at a started live session. -/
theorem session_destroy_total_witness :
    (initialSession.startSession.err = none) ∧
    ((initialSession.startSession.Destroy none).err.isSome = true ∧
     (initialSession.startSession.readyPresent = true →
        (initialSession.startSession.Destroy none).readyReleased = true) ∧
     (initialSession.startSession.sigPresent = true →
        (initialSession.startSession.Destroy none).sigReleased = true) ∧
     (initialSession.startSession.evchPresent = true →
        (initialSession.startSession.Destroy none).evchClosed = true) ∧
     (initialSession.startSession.donePresent = true →
        (initialSession.startSession.Destroy none).doneClosed = true)) :=
  ⟨rfl, session_destroy_total initialSession.startSession none rfl⟩

/-! ## ServiceInfo, Service and serviceContainer (from `ServiceInfo`,
`Service`, `serviceContainer` and their methods) -/

/-- Status record of one service instance.  The Go `errs` field is a
`map[time.Time]error`; it is modelled as the list of its (timestamp, error)
entries in insertion order, the empty list standing for the nil map. -/
structure ServiceInfo where
  name : String
  addr : String
  running : Bool
  errs : List (Nat × GoErr)
  startedAt : Nat
  stoppedAt : Nat

/-- Source `ServiceInfo.addErr`: ignores a nil error, otherwise records the error
under the current timestamp. -/
def ServiceInfo.addErr (s : ServiceInfo) (now : Nat) : Option GoErr → ServiceInfo
  | none => s
  | some e => { s with errs := s.errs ++ [(now, e)] }

/-- Source `ServiceInfo.started`: marks the service running at the current time. -/
def ServiceInfo.started (s : ServiceInfo) (now : Nat) : ServiceInfo :=
  { s with running := true, startedAt := now }

/-- Source `ServiceInfo.stopped`: marks the service not running at the current
time. -/
def ServiceInfo.stopped (s : ServiceInfo) (now : Nat) : ServiceInfo :=
  { s with running := false, stoppedAt := now }

/-- Source `ServiceInfo.Failed`: has this instance ever recorded an error? -/
def ServiceInfo.Failed (s : ServiceInfo) : Bool := !s.errs.isEmpty

/-- An event handler (`ActionWithEvent`): modelled by an identity used to
observe invocation order and by the error the handler returns when invoked. -/
structure ActionWithEvent where
  hid : Nat
  result : Option GoErr

/-- A lifecycle hook (`Action`): absent, or present with the error value it
returns when invoked. -/
def hookResult : Option (Option GoErr) → Option GoErr
  | none => none
  | some r => r

/-- Declarative service definition.  Each hook slot is `none` when unset and
`some r` when set, with `r` the error the hook returns when run; `listeners`
is the listener table keyed by `scope.key` or `"any"` (a Go map, modelled as
an association list with pairwise-distinct keys whose order stands for one
iteration order). -/
structure Service where
  name : String
  initializeAction : Option (Option GoErr)
  startAction : Option (Option GoErr)
  stopAction : Option (Option GoErr)
  listeners : Option (List (String × List ActionWithEvent))
  cronsetup : Bool

/-- Externally observable actions a container performs, in program order. -/
inductive Eff where
  | cronStart
  | cronStopDrained
  | cancelCtx (cause : Option GoErr)
  | runStopHook
  | dispatchEvent (scope key : String)

/-- Runtime container: one service, its info record, whether the stored
cancellation function has been assigned (it is nil until `start` stores one),
and whether a Cron was built by `initialize`. -/
structure serviceContainer where
  info : ServiceInfo
  svc : Service
  cancelSet : Bool
  cronPresent : Bool

/-- Source `Service.container`: builds a fresh container for this service; every
field other than the service and the info name/address has its zero value. -/
def Service.container (svc : Service) (addr : String) : serviceContainer :=
  { info := { name := svc.name, addr := addr, running := false, errs := [],
              startedAt := 0, stoppedAt := 0 },
    svc := svc, cancelSet := false, cronPresent := false }

/-- Embeds the container initialize method: runs the initialize hook if
set — a hook error is recorded and returned; otherwise builds a Cron when
`cronsetup` is set. -/
def initializeContainer (c : serviceContainer) (now : Nat) :
    serviceContainer × Option GoErr :=
  match c.svc.initializeAction with
  | some (some e) => ({ c with info := c.info.addErr now (some e) }, some e)
  | _ =>
    (if c.svc.cronsetup then { c with cronPresent := true } else c, none)

/-- Source `serviceContainer.start`: runs the start hook if set, starts the Cron if
present, stores a fresh cancellable context, then on hook success marks the
info running and on hook failure records the error — and returns nil in both
cases.  Result: (updated container, returned error, effects). -/
def serviceContainer.start (c : serviceContainer) (now : Nat) :
    serviceContainer × Option GoErr × List Eff :=
  let err := hookResult c.svc.startAction
  let effs := if c.cronPresent then [Eff.cronStart] else []
  let c1 := { c with cancelSet := true }
  let c2 :=
    match err with
    | none => { c1 with info := c1.info.started now }
    | some e => { c1 with info := c1.info.addErr now (some e) }
  (c2, none, effs ++ [Eff.dispatchEvent "services" "service.started"])

/-- Source `serviceContainer.stop`: stops the Cron if present (waiting for the
drain signal), invokes the stored cancellation function with the cause — a
nil function when `start` never ran, modelled as the `none` (panic) outcome —
then runs the stop hook if set, joins its error with a non-nil cause, marks
the info stopped and dispatches the stopped event. -/
def serviceContainer.stop (c : serviceContainer) (cause : Option GoErr) (now : Nat) :
    Option (serviceContainer × Option GoErr × List Eff) :=
  let effs0 := if c.cronPresent then [Eff.cronStopDrained] else []
  if c.cancelSet then
    let effs1 := effs0 ++ [Eff.cancelCtx cause]
    let hookErr := hookResult c.svc.stopAction
    let effs2 := effs1 ++
      (match c.svc.stopAction with | some _ => [Eff.runStopHook] | none => [])
    let ret :=
      match cause with
      | none => hookErr
      | some _ => errorsJoin [hookErr, cause]
    some ({ c with info := c.info.stopped now }, ret,
      effs2 ++ [Eff.dispatchEvent "services" "service.stopped"])
  else
    none

/-- C1: `start` always reports success to the caller — it runs the start
hook; a successful hook marks the info running with the current timestamp, a
failing hook records its error into the info, and in both cases the returned
error is nil. -/
theorem container_start_swallows_hook_error (c : serviceContainer) (now : Nat)
    (r : Option GoErr) (h : c.svc.startAction = some r) :
    (c.start now).2.1 = none ∧
    (r = none →
      (c.start now).1.info.running = true ∧ (c.start now).1.info.startedAt = now) ∧
    (∀ e, r = some e →
      (c.start now).1.info.errs = c.info.errs ++ [(now, e)] ∧
      (c.start now).1.info.running = c.info.running) := by
  refine ⟨?_, ?_, ?_⟩
  · simp [serviceContainer.start]
  · intro hr
    simp [serviceContainer.start, hookResult, h, hr, ServiceInfo.started]
  · intro e hr
    simp [serviceContainer.start, hookResult, h, hr, ServiceInfo.addErr]

/-- A service definition with a failing start hook, used as witness input. -/
def witnessFailingService : Service :=
  { name := "w", initializeAction := none,
    startAction := some (some (GoErr.base "start failed")),
    stopAction := none, listeners := none, cronsetup := false }

/-- Witness for C1 on a container whose start hook fails. -/
theorem container_start_swallows_hook_error_witness :
    (witnessFailingService.container "app.w").svc.startAction
        = some (some (GoErr.base "start failed")) ∧
    ((witnessFailingService.container "app.w").start 7).2.1 = none ∧
    ((witnessFailingService.container "app.w").start 7).1.info.errs
        = [(7, GoErr.base "start failed")] := by
  refine ⟨rfl, ?_, ?_⟩
  · exact (container_start_swallows_hook_error
      (witnessFailingService.container "app.w") 7
      (some (GoErr.base "start failed")) rfl).1
  · have h := (container_start_swallows_hook_error
      (witnessFailingService.container "app.w") 7
      (some (GoErr.base "start failed")) rfl).2.2
      (GoErr.base "start failed") rfl
    simpa [Service.container, witnessFailingService] using h.1

/-! ## ServiceLoader (from `ServiceLoader`, `NewServiceLoader`, `Load`,
`Err`, `cancel`, `done`, `addErr`) -/

/-- The error `fmt.Errorf("%w: duplicated service request %s", ErrService, a)`. -/
def errDuplicatedService (a : String) : GoErr :=
  GoErr.wrapped ErrService ("duplicated service request " ++ a)

/-- The error `fmt.Errorf("%w: loader initializeton failed", ErrService)`. -/
def errLoaderInitFailed : GoErr :=
  GoErr.wrapped ErrService "loader initializeton failed"

/-- The error `fmt.Errorf("%w: service loader failed to load required
services %s", ErrService, a)`. -/
def errLoaderFailed (a : String) : GoErr :=
  GoErr.wrapped ErrService ("service loader failed to load required services " ++ a)

/-- The error `fmt.Errorf("service did not load on time %s", a)`. -/
def errDidNotLoad (a : String) : GoErr :=
  GoErr.plain ("service did not load on time " ++ a)

/-- The usage error returned by `Err()` while the loader is still loading. -/
def errLoaderCheckedEarly : GoErr :=
  GoErr.wrapped ErrService
    "service loader error checked before loader finished! did you wait for .Loaded?"

/-- Loader state: the `loading` flag, the accumulated error list, the
resolved target address strings, and whether `loaderCh` has been closed. -/
structure ServiceLoader where
  loading : Bool
  errs : List GoErr
  svcs : List String
  chClosed : Bool

/-- Source `ServiceLoader.cancel`: records the reason, clears the loading flag and
closes the notification channel. -/
def ServiceLoader.cancel (sl : ServiceLoader) (reason : GoErr) : ServiceLoader :=
  { sl with errs := sl.errs ++ [reason], loading := false, chClosed := true }

/-- Source `ServiceLoader.done`: clears the loading flag and closes the channel. -/
def ServiceLoader.doneStep (sl : ServiceLoader) : ServiceLoader :=
  { sl with loading := false, chClosed := true }

/-- Source `ServiceLoader.Err`: a usage error while still loading, otherwise the
join of the accumulated errors (nil when there are none). -/
def ServiceLoader.ErrResult (sl : ServiceLoader) : Option GoErr :=
  if sl.loading then some errLoaderCheckedEarly
  else if sl.errs.isEmpty then none else some (GoErr.joined sl.errs)

/-- Computes `time.Duration(sess.Get("app.service.loader.timeout").Int64())` followed
by the non-positive check: an unset key yields 0, and a non-positive value is
replaced by 30 seconds (in nanoseconds). -/
def ServiceLoader.timeoutOf (cfg : Option Int) : Int :=
  let t := cfg.getD 0
  if t ≤ 0 then 30000000000 else t

/-- The queue-building loop of `Load`: for each target address, look it up in
the session's service registry (a lookup error cancels), detect a duplicate
already queued (cancels with the duplicated-service error), skip targets
already running, and queue the rest. -/
def queueTargets (reg : String → Except GoErr ServiceInfo) :
    List String → List (String × ServiceInfo) → List String →
    Except GoErr (List (String × ServiceInfo) × List String)
  | [], queue, req => .ok (queue, req)
  | a :: rest, queue, req =>
    match reg a with
    | .error e => .error e
    | .ok info =>
      if (queue.map Prod.fst).contains a then .error (errDuplicatedService a)
      else if info.running then queueTargets reg rest queue req
      else queueTargets reg rest (queue ++ [(a, info)]) (req ++ [a])

/-- Outcome of the synchronous part of `Load`, up to the point where the
background waiter is spawned. -/
inductive LoadSyncResult where
  | alreadyLoading (sl : ServiceLoader)
  | cancelled (sl : ServiceLoader)
  | dispatched (sl : ServiceLoader) (queue : List (String × ServiceInfo)) (timeoutNs : Int)

/-- Source `ServiceLoader.Load` (synchronous part): coalesces a duplicate call while
loading, cancels on construction errors, reads the timeout, builds the work
queue, and on success dispatches the `"services"/"start.services"` event.
The second component lists the (scope, key) pairs of the events dispatched. -/
def ServiceLoader.Load (sl : ServiceLoader) (cfg : Option Int)
    (reg : String → Except GoErr ServiceInfo) :
    LoadSyncResult × List (String × String) :=
  if sl.loading then (.alreadyLoading sl, [])
  else
    let sl1 := { sl with loading := true }
    if !sl1.errs.isEmpty then
      (.cancelled (sl1.cancel errLoaderInitFailed), [])
    else
      let timeoutNs := ServiceLoader.timeoutOf cfg
      match queueTargets reg sl1.svcs [] [] with
      | .error e => (.cancelled (sl1.cancel e), [])
      | .ok (queue, _req) =>
        (.dispatched sl1 queue timeoutNs, [("services", "start.services")])

/-- Outcome of one 100ms poll tick of the background waiter. -/
inductive TickResult where
  | aborted (sl : ServiceLoader)
  | completed (sl : ServiceLoader)
  | waiting (sl : ServiceLoader)

/-- One pass over the queue in the waiter's tick branch: a target that has
ever recorded an error aborts the load, appending that target's errors and
cancelling with an error naming its address; otherwise running targets are
counted and the load completes when all are running. -/
def tickScan (sl : ServiceLoader) :
    List (String × ServiceInfo) → Nat → Nat → TickResult
  | [], loaded, qlen =>
    if loaded == qlen then .completed sl.doneStep else .waiting sl
  | (_, info) :: rest, loaded, qlen =>
    if !info.errs.isEmpty then
      .aborted (({ sl with errs := sl.errs ++ info.errs.map Prod.snd }).cancel
        (errLoaderFailed info.addr))
    else if info.running then tickScan sl rest (loaded + 1) qlen
    else tickScan sl rest loaded qlen

/-- One poll tick of `Load`'s background waiter over the work queue. -/
def ServiceLoader.loadTick (sl : ServiceLoader)
    (queue : List (String × ServiceInfo)) : TickResult :=
  tickScan sl queue 0 queue.length

theorem leadsWith_self : ∀ l : List Char, leadsWith l l = true := by
  intro l
  induction l with
  | nil => rfl
  | cons a as ih => simp [leadsWith, ih]

theorem occursIn_append_self : ∀ x a : List Char, occursIn a (x ++ a) = true := by
  intro x a
  induction x with
  | nil =>
    cases a with
    | nil => rfl
    | cons c cs => simp [occursIn, leadsWith_self]
  | cons c cs ih => simp [occursIn, ih]

theorem strContains_append_self (x a : String) :
    strContains (x ++ a) a = true := by
  unfold strContains
  rw [String.data_append]
  exact occursIn_append_self x.data a.data

theorem errLoaderFailed_mentions (a : String) :
    (errLoaderFailed a).mentions a = true := by
  simp [errLoaderFailed, GoErr.mentions, strContains_append_self]

theorem mentionsList_append (xs ys : List GoErr) (a : String) :
    GoErr.mentionsList (xs ++ ys) a
      = (GoErr.mentionsList xs a || GoErr.mentionsList ys a) := by
  induction xs with
  | nil => simp [GoErr.mentionsList]
  | cons e es ih => simp [GoErr.mentionsList, ih, Bool.or_assoc]

theorem tickScan_abort (queue : List (String × ServiceInfo)) :
    ∀ (sl : ServiceLoader) (loaded qlen : Nat),
    (∃ p ∈ queue, p.2.errs ≠ []) →
    ∃ front a info back,
      queue = front ++ (a, info) :: back ∧
      (∀ q ∈ front, q.2.errs = ([] : List (Nat × GoErr))) ∧ info.errs ≠ [] ∧
      tickScan sl queue loaded qlen = .aborted { sl with
        errs := (sl.errs ++ info.errs.map Prod.snd) ++ [errLoaderFailed info.addr],
        loading := false, chClosed := true } := by
  induction queue with
  | nil => rintro sl loaded qlen ⟨p, hp, _⟩; cases hp
  | cons q0 rest ih =>
    rintro sl loaded qlen ⟨p, hp, hperr⟩
    obtain ⟨a0, i0⟩ := q0
    by_cases h0 : i0.errs = []
    · have hrest : ∃ p ∈ rest, p.2.errs ≠ [] := by
        rcases List.mem_cons.mp hp with h | h
        · exfalso; apply hperr; rw [h]; exact h0
        · exact ⟨p, h, hperr⟩
      by_cases hrun : i0.running
      · obtain ⟨front, a, info, back, hdec, hfront, herr, hrun2⟩ :=
          ih sl (loaded + 1) qlen hrest
        refine ⟨(a0, i0) :: front, a, info, back, by rw [hdec]; rfl, ?_, herr, ?_⟩
        · intro q hq
          rcases List.mem_cons.mp hq with h | h
          · rw [h]; exact h0
          · exact hfront q h
        · simpa [tickScan, h0, hrun] using hrun2
      · obtain ⟨front, a, info, back, hdec, hfront, herr, hrun2⟩ :=
          ih sl loaded qlen hrest
        refine ⟨(a0, i0) :: front, a, info, back, by rw [hdec]; rfl, ?_, ?_, ?_⟩
        · intro q hq
          rcases List.mem_cons.mp hq with h | h
          · rw [h]; exact h0
          · exact hfront q h
        · exact herr
        · simpa [tickScan, h0, hrun] using hrun2
    · refine ⟨[], a0, i0, rest, rfl, by simp, h0, ?_⟩
      simp [tickScan, h0, ServiceLoader.cancel]

/-- C4: whenever some queued target has recorded an error, the very next poll
tick aborts the whole load (rather than completing or waiting for the
timeout): the first such target's recorded errors are appended to the
loader's error list, the loader cancels with an aggregated error naming that
target's address, and `Err()` afterwards mentions that address. -/
theorem loader_fail_fast (sl : ServiceLoader) (queue : List (String × ServiceInfo))
    (h : ∃ p ∈ queue, p.2.errs ≠ []) :
    ∃ front a info back,
      queue = front ++ (a, info) :: back ∧
      (∀ q ∈ front, q.2.errs = ([] : List (Nat × GoErr))) ∧ info.errs ≠ [] ∧
      sl.loadTick queue = .aborted { sl with
        errs := (sl.errs ++ info.errs.map Prod.snd) ++ [errLoaderFailed info.addr],
        loading := false, chClosed := true } ∧
      ServiceLoader.ErrResult { sl with
        errs := (sl.errs ++ info.errs.map Prod.snd) ++ [errLoaderFailed info.addr],
        loading := false, chClosed := true }
        = some (GoErr.joined
            ((sl.errs ++ info.errs.map Prod.snd) ++ [errLoaderFailed info.addr])) ∧
      GoErr.mentions
        (GoErr.joined
          ((sl.errs ++ info.errs.map Prod.snd) ++ [errLoaderFailed info.addr]))
        info.addr = true := by
  obtain ⟨front, a, info, back, hdec, hfront, herr, htick⟩ :=
    tickScan_abort queue sl 0 queue.length h
  refine ⟨front, a, info, back, hdec, hfront, herr, htick, ?_, ?_⟩
  · simp [ServiceLoader.ErrResult]
  · have hc : strContains
        ("service loader failed to load required services " ++ info.addr) info.addr = true :=
      strContains_append_self _ _
    simp [GoErr.mentions, mentionsList_append, GoErr.mentionsList, errLoaderFailed, hc]

/-- A target snapshot that has recorded an error, used as witness input. -/
def infoErrW : ServiceInfo :=
  { name := "x", addr := "app.test.x", running := false,
    errs := [(3, GoErr.base "kaput")], startedAt := 0, stoppedAt := 0 }

/-- A loader mid-load, used as witness input. -/
def loadingLoaderW : ServiceLoader :=
  { loading := true, errs := [], svcs := ["app.test.x"], chClosed := false }

/-- Witness for C4 on a one-target queue whose target has recorded an error. -/
theorem loader_fail_fast_witness :
    (∃ p ∈ [("app.test.x", infoErrW)], p.2.errs ≠ ([] : List (Nat × GoErr))) ∧
    (∃ front a info back,
      [("app.test.x", infoErrW)] = front ++ (a, info) :: back ∧
      (∀ q ∈ front, q.2.errs = ([] : List (Nat × GoErr))) ∧ info.errs ≠ [] ∧
      loadingLoaderW.loadTick [("app.test.x", infoErrW)] = .aborted { loadingLoaderW with
        errs := (loadingLoaderW.errs ++ info.errs.map Prod.snd)
                  ++ [errLoaderFailed info.addr],
        loading := false, chClosed := true } ∧
      ServiceLoader.ErrResult { loadingLoaderW with
        errs := (loadingLoaderW.errs ++ info.errs.map Prod.snd)
                  ++ [errLoaderFailed info.addr],
        loading := false, chClosed := true }
        = some (GoErr.joined
            ((loadingLoaderW.errs ++ info.errs.map Prod.snd)
              ++ [errLoaderFailed info.addr])) ∧
      GoErr.mentions
        (GoErr.joined
          ((loadingLoaderW.errs ++ info.errs.map Prod.snd)
            ++ [errLoaderFailed info.addr]))
        info.addr = true) := by
  have hex : ∃ p ∈ [("app.test.x", infoErrW)], p.2.errs ≠ ([] : List (Nat × GoErr)) :=
    ⟨("app.test.x", infoErrW), by simp, by simp [infoErrW]⟩
  exact ⟨hex, loader_fail_fast loadingLoaderW [("app.test.x", infoErrW)] hex⟩

/-- A running target snapshot for the duplicate-address counterexample. -/
def infoRunningW : ServiceInfo :=
  { name := "one", addr := "app.test.one", running := true, errs := [],
    startedAt := 1, stoppedAt := 0 }

/-- A loader constructed with the same target address twice. -/
def dupRunningLoader : ServiceLoader :=
  { loading := false, errs := [], svcs := ["app.test.one", "app.test.one"],
    chClosed := false }

/-- A registry in which the duplicated target is already running. -/
def dupRunningReg : String → Except GoErr ServiceInfo :=
  fun a => if a = "app.test.one" then .ok infoRunningW
           else .error (GoErr.plain "unknown service")

/-- C3 counterexample: a loader constructed with a duplicated target address
whose duplicated target is already running does not fail — both occurrences
are skipped by the already-running check before the duplicate check can see
them, no error is recorded, and the start-services event is dispatched. -/
theorem loader_duplicate_not_detected_cex :
    ServiceLoader.Load dupRunningLoader none dupRunningReg
      = (.dispatched { dupRunningLoader with loading := true } [] 30000000000,
         [("services", "start.services")]) := by
  rfl

/-- C3 amended: when the queue-building loop reaches an occurrence of an
address that is already queued (so its earlier occurrence was not skipped as
already running), it stops with the duplicated-service-request error; a
loader that is not already loading and has no construction errors then
cancels with exactly that error, before dispatching any event. -/
theorem loader_duplicate_cancel (sl : ServiceLoader) (cfg : Option Int)
    (reg : String → Except GoErr ServiceInfo) (a : String)
    (h1 : sl.loading = false) (h2 : sl.errs = [])
    (h3 : queueTargets reg sl.svcs [] [] = .error (errDuplicatedService a)) :
    ServiceLoader.Load sl cfg reg
      = (.cancelled { sl with
            loading := false
            errs := [errDuplicatedService a]
            chClosed := true }, []) ∧
    ∀ (rest : List String) (queue : List (String × ServiceInfo))
      (req : List String) (info : ServiceInfo),
      reg a = .ok info → (queue.map Prod.fst).contains a = true →
      queueTargets reg (a :: rest) queue req = .error (errDuplicatedService a) := by
  constructor
  · simp [ServiceLoader.Load, h1, h2, h3, ServiceLoader.cancel]
  · intro rest queue req info hreg hdup
    unfold queueTargets
    rw [hreg]
    simp only [hdup]
    simp

/-- A not-running target snapshot for the duplicate-address witness. -/
def infoIdleW : ServiceInfo :=
  { name := "two", addr := "app.test.two", running := false, errs := [],
    startedAt := 0, stoppedAt := 0 }

/-- A loader whose duplicated target is not yet running. -/
def dupIdleLoader : ServiceLoader :=
  { loading := false, errs := [], svcs := ["app.test.two", "app.test.two"],
    chClosed := false }

/-- A registry in which the duplicated target is not running. -/
def dupIdleReg : String → Except GoErr ServiceInfo :=
  fun a => if a = "app.test.two" then .ok infoIdleW
           else .error (GoErr.plain "unknown service")

/-- Witness for C3 amended on a loader whose duplicated target is idle. -/
theorem loader_duplicate_cancel_witness :
    (dupIdleLoader.loading = false) ∧ (dupIdleLoader.errs = []) ∧
    (queueTargets dupIdleReg dupIdleLoader.svcs [] []
        = .error (errDuplicatedService "app.test.two")) ∧
    (ServiceLoader.Load dupIdleLoader none dupIdleReg
        = (.cancelled { dupIdleLoader with
              loading := false
              errs := [errDuplicatedService "app.test.two"]
              chClosed := true }, []) ∧
     ∀ (rest : List String) (queue : List (String × ServiceInfo))
       (req : List String) (info : ServiceInfo),
       dupIdleReg "app.test.two" = .ok info →
       (queue.map Prod.fst).contains "app.test.two" = true →
       queueTargets dupIdleReg ("app.test.two" :: rest) queue req
         = .error (errDuplicatedService "app.test.two")) :=
  ⟨rfl, rfl, rfl,
   loader_duplicate_cancel dupIdleLoader none dupIdleReg "app.test.two" rfl rfl rfl⟩

/-- C8: the timeout used by `Load` defaults to exactly 30 seconds when the
configuration key is unset or yields a non-positive duration, and is the
configured value when positive; and every dispatched load carries exactly
that timeout. -/
theorem loader_timeout_default (cfg : Option Int) :
    (ServiceLoader.timeoutOf none = 30000000000) ∧
    (cfg.getD 0 ≤ 0 → ServiceLoader.timeoutOf cfg = 30000000000) ∧
    (0 < cfg.getD 0 → ServiceLoader.timeoutOf cfg = cfg.getD 0) ∧
    (∀ (sl : ServiceLoader) (reg : String → Except GoErr ServiceInfo)
       (sl2 : ServiceLoader) (queue : List (String × ServiceInfo)) (t : Int)
       (evs : List (String × String)),
      ServiceLoader.Load sl cfg reg = (.dispatched sl2 queue t, evs) →
      t = ServiceLoader.timeoutOf cfg) := by
  refine ⟨rfl, ?_, ?_, ?_⟩
  · intro h; simp [ServiceLoader.timeoutOf, h]
  · intro h; simp [ServiceLoader.timeoutOf, not_le.mpr h]
  · intro sl reg sl2 queue t evs hEq
    unfold ServiceLoader.Load at hEq
    by_cases hl : sl.loading
    · simp [hl] at hEq
    · simp only [hl, if_false, Bool.false_eq_true] at hEq
      by_cases he : sl.errs.isEmpty
      · simp only [he, Bool.not_true, Bool.false_eq_true, if_false] at hEq
        rcases hq : queueTargets reg sl.svcs [] [] with e | qr
        · rw [hq] at hEq; simp at hEq
        · rw [hq] at hEq
          obtain ⟨q, r⟩ := qr
          simp at hEq
          exact hEq.1.2.2.symm
      · simp [he] at hEq

/-- An empty, fresh loader used in the C8 witness. -/
def emptyLoaderW : ServiceLoader :=
  { loading := false, errs := [], svcs := [], chClosed := false }

/-- A registry with no services, used in the C8 witness. -/
def emptyRegW : String → Except GoErr ServiceInfo :=
  fun _ => .error (GoErr.plain "unknown service")

/-- Witness for C8: a negative configured duration falls back to 30s, a
positive one is used as-is, and a concrete dispatched load carries the
default timeout. -/
theorem loader_timeout_default_witness :
    ((Option.some (-7 : Int)).getD 0 ≤ 0) ∧
    (ServiceLoader.timeoutOf (some (-7)) = 30000000000) ∧
    (0 < (Option.some (5 : Int)).getD 0) ∧
    (ServiceLoader.timeoutOf (some 5) = 5) ∧
    ((30000000000 : Int) = ServiceLoader.timeoutOf none) :=
  ⟨by decide, (loader_timeout_default (some (-7))).2.1 (by decide),
   by decide, (loader_timeout_default (some 5)).2.2.1 (by decide),
   (loader_timeout_default none).2.2.2 emptyLoaderW emptyRegW
     { emptyLoaderW with loading := true } [] 30000000000
     [("services", "start.services")] rfl⟩

/-- C7: `stop` with a non-nil cause on a started container with a Cron first
waits for the Cron to drain, then cancels the derived context with the
cause, runs the stop hook if set, marks the info stopped at the current
time, dispatches the stopped event, and returns the join of the stop-hook
error with the cause. -/
theorem container_stop_joins_cause (c : serviceContainer) (e : GoErr) (now : Nat)
    (hcancel : c.cancelSet = true) (hcron : c.cronPresent = true) :
    c.stop (some e) now
      = some ({ c with info := c.info.stopped now },
          errorsJoin [hookResult c.svc.stopAction, some e],
          [Eff.cronStopDrained, Eff.cancelCtx (some e)] ++
            (match c.svc.stopAction with
             | some _ => [Eff.runStopHook]
             | none => []) ++
            [Eff.dispatchEvent "services" "service.stopped"]) ∧
    (c.info.stopped now).running = false ∧
    (c.info.stopped now).stoppedAt = now := by
  refine ⟨?_, rfl, rfl⟩
  simp only [serviceContainer.stop, hcancel, hcron, if_true]
  rfl

/-- A service with a failing stop hook, used as witness input for C7. -/
def witnessStopService : Service :=
  { name := "s", initializeAction := none, startAction := none,
    stopAction := some (some (GoErr.base "stop failed")),
    listeners := none, cronsetup := true }

/-- A started container with a Cron, used as witness input for C7. -/
def startedCronContainer : serviceContainer :=
  { info := { name := "s", addr := "app.s", running := true, errs := [],
              startedAt := 2, stoppedAt := 0 },
    svc := witnessStopService, cancelSet := true, cronPresent := true }

/-- Witness for C7 on a started container with a Cron and a failing stop
hook. -/
theorem container_stop_joins_cause_witness :
    (startedCronContainer.cancelSet = true) ∧
    (startedCronContainer.cronPresent = true) ∧
    (startedCronContainer.stop (some (GoErr.base "cause")) 9
      = some ({ startedCronContainer with
                  info := startedCronContainer.info.stopped 9 },
          errorsJoin [hookResult startedCronContainer.svc.stopAction,
                      some (GoErr.base "cause")],
          [Eff.cronStopDrained, Eff.cancelCtx (some (GoErr.base "cause"))] ++
            (match startedCronContainer.svc.stopAction with
             | some _ => [Eff.runStopHook]
             | none => []) ++
            [Eff.dispatchEvent "services" "service.stopped"]) ∧
     (startedCronContainer.info.stopped 9).running = false ∧
     (startedCronContainer.info.stopped 9).stoppedAt = 9) :=
  ⟨rfl, rfl,
   container_stop_joins_cause startedCronContainer (GoErr.base "cause") 9 rfl rfl⟩

/-- C9: the stored cancellation function is assigned only by `start` —
`initialize` leaves it untouched, `start` always assigns it, `stop` after
`start` invokes a non-nil function (no panic outcome), and `stop` on a
freshly built, never-started container invokes a nil function (the panic
outcome). -/
theorem container_stop_cancel_nil_safety (c : serviceContainer)
    (svc : Service) (addr : String) (cause : Option GoErr) (nowI now now2 : Nat) :
    ((initializeContainer c nowI).1.cancelSet = c.cancelSet) ∧
    ((c.start now).1.cancelSet = true) ∧
    (((c.start now).1.stop cause now2).isSome = true) ∧
    ((svc.container addr).cancelSet = false) ∧
    ((svc.container addr).stop cause now2 = none) := by
  refine ⟨?_, ?_, ?_, rfl, rfl⟩
  · unfold initializeContainer
    rcases c.svc.initializeAction with _ | r
    · by_cases h : c.svc.cronsetup <;> simp [h]
    · rcases r with _ | e
      · by_cases h : c.svc.cronsetup <;> simp [h]
      · simp
  · unfold serviceContainer.start
    rcases hookResult c.svc.startAction with _ | e <;> simp
  · unfold serviceContainer.stop
    have hset : (c.start now).1.cancelSet = true := by
      unfold serviceContainer.start
      rcases hookResult c.svc.startAction with _ | e <;> simp
    simp [hset]

/-! ## Event dispatch to listeners (from `serviceContainer.handleEvent`,
`Service.OnEvent`, `Service.OnAnyEvent`) -/

/-- Modelled from the spec: the `Event` interface's `Scope()`/`Key()`
accessors — the Event implementation itself is not among the provided
sources; only these two accessors are consulted by `handleEvent`. -/
structure GoEvent where
  scope : String
  key : String

/-- The listener identity key `ev.Scope() + "." + ev.Key()`. -/
def lidOf (ev : GoEvent) : String := ev.scope ++ "." ++ ev.key

/-- The inner loop of `handleEvent` over one listener group registered under
table key `sk`: each listener whose key matches `"any"` or the event identity
is invoked; a handler error is recorded into the info (and logged) but does
not stop the remaining handlers. -/
def runListenerGroup (now : Nat) (lid sk : String) :
    List ActionWithEvent → ServiceInfo → List Nat × ServiceInfo
  | [], info => ([], info)
  | h :: hs, info =>
    if sk = "any" ∨ sk = lid then
      let info1 := info.addErr now h.result
      let r := runListenerGroup now lid sk hs info1
      (h.hid :: r.1, r.2)
    else
      runListenerGroup now lid sk hs info

/-- The outer loop of `handleEvent` over the listener table. -/
def runListeners (now : Nat) (lid : String) :
    List (String × List ActionWithEvent) → ServiceInfo → List Nat × ServiceInfo
  | [], info => ([], info)
  | (sk, hs) :: rest, info =>
    let r1 := runListenerGroup now lid sk hs info
    let r2 := runListeners now lid rest r1.2
    (r1.1 ++ r2.1, r2.2)

/-- Source `serviceContainer.handleEvent`: nothing happens with a nil listener
table; otherwise every group whose key matches the event identity or `"any"`
is invoked in table order.  Returns the invoked handler identities in
invocation order together with the updated info. -/
def serviceContainer.handleEvent (c : serviceContainer) (ev : GoEvent) (now : Nat) :
    List Nat × ServiceInfo :=
  match c.svc.listeners with
  | none => ([], c.info)
  | some table => runListeners now (lidOf ev) table c.info

/-- The handler identities `handleEvent` is expected to invoke: the groups
whose key matches, in table order, each group in registration order. -/
def invokedOf (lid : String) : List (String × List ActionWithEvent) → List Nat
  | [] => []
  | (sk, hs) :: rest =>
    (if sk = "any" ∨ sk = lid then hs.map ActionWithEvent.hid else [])
      ++ invokedOf lid rest

/-- The handlers of all matching groups, in invocation order. -/
def matchedHandlers (lid : String) :
    List (String × List ActionWithEvent) → List ActionWithEvent
  | [] => []
  | (sk, hs) :: rest =>
    (if sk = "any" ∨ sk = lid then hs else []) ++ matchedHandlers lid rest


/-- The (timestamp, error) entries that recording the errors of a handler
list appends to the info's error history. -/
def errEntries (now : Nat) (hs : List ActionWithEvent) : List (Nat × GoErr) :=
  hs.filterMap (fun h => h.result.map (fun e => (now, e)))

theorem errEntries_append (now : Nat) (xs ys : List ActionWithEvent) :
    errEntries now (xs ++ ys) = errEntries now xs ++ errEntries now ys := by
  simp [errEntries, List.filterMap_append]

theorem runListenerGroup_match (now : Nat) (lid sk : String)
    (hc : sk = "any" ∨ sk = lid) :
    ∀ (hs : List ActionWithEvent) (info : ServiceInfo),
    runListenerGroup now lid sk hs info
      = (hs.map ActionWithEvent.hid,
         { info with errs := info.errs ++ errEntries now hs }) := by
  intro hs
  induction hs with
  | nil => intro info; simp [runListenerGroup, errEntries]
  | cons h hs ih =>
    intro info
    rcases hr : h.result with _ | e <;>
      simp [runListenerGroup, hc, ServiceInfo.addErr, hr, ih, errEntries,
        List.append_assoc]

theorem runListenerGroup_nomatch (now : Nat) (lid sk : String)
    (hc : ¬(sk = "any" ∨ sk = lid)) :
    ∀ (hs : List ActionWithEvent) (info : ServiceInfo),
    runListenerGroup now lid sk hs info = ([], info) := by
  intro hs
  induction hs with
  | nil => intro info; simp [runListenerGroup]
  | cons h hs ih => intro info; simp [runListenerGroup, hc, ih]

theorem runListeners_spec (now : Nat) (lid : String) :
    ∀ (table : List (String × List ActionWithEvent)) (info : ServiceInfo),
    runListeners now lid table info
      = (invokedOf lid table,
         { info with errs := info.errs ++ errEntries now (matchedHandlers lid table) }) := by
  intro table
  induction table with
  | nil => intro info; simp [runListeners, invokedOf, matchedHandlers, errEntries]
  | cons p rest ih =>
    intro info
    obtain ⟨sk, hs⟩ := p
    by_cases hc : sk = "any" ∨ sk = lid
    · simp [runListeners, runListenerGroup_match now lid sk hc, ih,
        invokedOf, matchedHandlers, hc, errEntries_append, List.append_assoc]
    · simp [runListeners, runListenerGroup_nomatch now lid sk hc, ih,
        invokedOf, matchedHandlers, hc]

theorem invokedOf_no_match (lid : String) :
    ∀ (table : List (String × List ActionWithEvent)),
    "any" ∉ table.map Prod.fst → lid ∉ table.map Prod.fst →
    invokedOf lid table = [] := by
  intro table
  induction table with
  | nil => intro _ _; rfl
  | cons p rest ih =>
    intro hany hlid
    obtain ⟨sk, hs⟩ := p
    have h1 : sk ≠ "any" := fun h => hany (by simp [h])
    have h2 : sk ≠ lid := fun h => hlid (by simp [h])
    have hrest := ih (fun h => hany (by simp [h])) (fun h => hlid (by simp [h]))
    simp [invokedOf, h1, h2, hrest]

theorem invokedOf_only_any (lid : String) (hs2 : List ActionWithEvent)
    (hne : lid ≠ "any") :
    ∀ (table : List (String × List ActionWithEvent)),
    (table.map Prod.fst).Nodup → lid ∉ table.map Prod.fst →
    ("any", hs2) ∈ table →
    invokedOf lid table = hs2.map ActionWithEvent.hid := by
  intro table
  induction table with
  | nil => intro _ _ h; cases h
  | cons p rest ih =>
    intro hnodup hlid hmem
    obtain ⟨sk, hs⟩ := p
    have hnodup2 : (rest.map Prod.fst).Nodup := (List.nodup_cons.mp (by simpa using hnodup)).2
    have hnotin : sk ∉ rest.map Prod.fst := (List.nodup_cons.mp (by simpa using hnodup)).1
    rcases List.mem_cons.mp hmem with h | h
    · rw [Prod.mk.injEq] at h
      obtain ⟨hk, hv⟩ := h
      subst hk
      subst hv
      have hrest : invokedOf lid rest = [] :=
        invokedOf_no_match lid rest hnotin (fun hx => hlid (by simp [hx]))
      simp [invokedOf, hrest]
    · have hskany : sk ≠ "any" := by
        intro hx
        exact hnotin (by rw [hx]; exact List.mem_map_of_mem Prod.fst h)
      have hsklid : sk ≠ lid := fun hx => hlid (by simp [hx])
      have hrest := ih hnodup2 (fun hx => hlid (by simp [hx])) h
      simp [invokedOf, hskany, hsklid, hrest]

theorem invokedOf_only_lid (lid : String) (hs1 : List ActionWithEvent)
    (hne : lid ≠ "any") :
    ∀ (table : List (String × List ActionWithEvent)),
    (table.map Prod.fst).Nodup → "any" ∉ table.map Prod.fst →
    (lid, hs1) ∈ table →
    invokedOf lid table = hs1.map ActionWithEvent.hid := by
  intro table
  induction table with
  | nil => intro _ _ h; cases h
  | cons p rest ih =>
    intro hnodup hany hmem
    obtain ⟨sk, hs⟩ := p
    have hnodup2 : (rest.map Prod.fst).Nodup := (List.nodup_cons.mp (by simpa using hnodup)).2
    have hnotin : sk ∉ rest.map Prod.fst := (List.nodup_cons.mp (by simpa using hnodup)).1
    rcases List.mem_cons.mp hmem with h | h
    · rw [Prod.mk.injEq] at h
      obtain ⟨hk, hv⟩ := h
      subst hk
      subst hv
      have hrest : invokedOf lid rest = [] :=
        invokedOf_no_match lid rest (fun hx => hany (by simp [hx])) hnotin
      simp [invokedOf, hrest]
    · have hsklid : sk ≠ lid := by
        intro hx
        exact hnotin (by rw [hx]; exact List.mem_map_of_mem Prod.fst h)
      have hskany : sk ≠ "any" := fun hx => hany (by simp [hx])
      have hrest := ih hnodup2 (fun hx => hany (by simp [hx])) h
      simp [invokedOf, hskany, hsklid, hrest]

theorem invokedOf_two_len (lid : String) (hs1 hs2 : List ActionWithEvent)
    (hne : lid ≠ "any") :
    ∀ (table : List (String × List ActionWithEvent)),
    (table.map Prod.fst).Nodup →
    (lid, hs1) ∈ table → ("any", hs2) ∈ table →
    (invokedOf lid table).length = hs1.length + hs2.length := by
  intro table
  induction table with
  | nil => intro _ h; cases h
  | cons p rest ih =>
    intro hnodup hm1 hm2
    obtain ⟨sk, hs⟩ := p
    have hnodup2 : (rest.map Prod.fst).Nodup := (List.nodup_cons.mp (by simpa using hnodup)).2
    have hnotin : sk ∉ rest.map Prod.fst := (List.nodup_cons.mp (by simpa using hnodup)).1
    rcases List.mem_cons.mp hm1 with h1 | h1
    · rw [Prod.mk.injEq] at h1
      obtain ⟨hk1, hv1⟩ := h1
      subst hk1
      subst hv1
      have hm2r : ("any", hs2) ∈ rest := by
        rcases List.mem_cons.mp hm2 with h2 | h2
        · rw [Prod.mk.injEq] at h2
          exact absurd h2.1.symm hne
        · exact h2
      have hrest := invokedOf_only_any lid hs2 hne rest hnodup2 hnotin hm2r
      simp [invokedOf, hrest]
    · rcases List.mem_cons.mp hm2 with h2 | h2
      · rw [Prod.mk.injEq] at h2
        obtain ⟨hk2, hv2⟩ := h2
        subst hk2
        subst hv2
        have hrest := invokedOf_only_lid lid hs1 hne rest hnodup2 hnotin h1
        simp [invokedOf, hrest, Nat.add_comm]
      · have hsklid : sk ≠ lid := by
          intro hx
          exact hnotin (by rw [hx]; exact List.mem_map_of_mem Prod.fst h1)
        have hskany : sk ≠ "any" := by
          intro hx
          exact hnotin (by rw [hx]; exact List.mem_map_of_mem Prod.fst h2)
        have hrest := ih hnodup2 h1 h2
        simp [invokedOf, hsklid, hskany, hrest]

theorem dot_mem_lidOf (ev : GoEvent) : '.' ∈ (lidOf ev).data := by
  unfold lidOf
  rw [String.data_append, String.data_append]
  refine List.mem_append_left _ (List.mem_append_right _ ?_)
  show '.' ∈ ".".data
  decide

theorem lidOf_ne_any (ev : GoEvent) : lidOf ev ≠ "any" := by
  intro h
  have hm := dot_mem_lidOf ev
  rw [h] at hm
  exact absurd hm (by decide)

/-- C5: dispatching one event to a container whose table registers `hs1`
under the event's `scope.key` identity and `hs2` under `"any"` invokes the
handlers of exactly the matching groups in table order — `hs1.length +
hs2.length` handlers in total, each group in registration order — and
appends the errors of exactly the invoked handlers to the info's error
history, so a handler error never prevents the remaining handlers from
running. -/
theorem handle_event_invokes_all (c : serviceContainer) (ev : GoEvent) (now : Nat)
    (table : List (String × List ActionWithEvent)) (hs1 hs2 : List ActionWithEvent)
    (htab : c.svc.listeners = some table)
    (hnodup : (table.map Prod.fst).Nodup)
    (h1 : (lidOf ev, hs1) ∈ table)
    (h2 : ("any", hs2) ∈ table) :
    (c.handleEvent ev now).1 = invokedOf (lidOf ev) table ∧
    (c.handleEvent ev now).1.length = hs1.length + hs2.length ∧
    (c.handleEvent ev now).2.errs
      = c.info.errs ++ errEntries now (matchedHandlers (lidOf ev) table) := by
  have hrun := runListeners_spec now (lidOf ev) table c.info
  have hh : c.handleEvent ev now = runListeners now (lidOf ev) table c.info := by
    unfold serviceContainer.handleEvent
    rw [htab]
  refine ⟨?_, ?_, ?_⟩
  · rw [hh, hrun]
  · rw [hh, hrun]
    exact invokedOf_two_len (lidOf ev) hs1 hs2 (lidOf_ne_any ev) table hnodup h1 h2
  · rw [hh, hrun]

/-- Witness handler: succeeds. -/
def hA : ActionWithEvent := ⟨1, none⟩

/-- Witness handler: fails. -/
def hB : ActionWithEvent := ⟨2, some (GoErr.base "handler failed")⟩

/-- Witness handler under `"any"`. -/
def hC : ActionWithEvent := ⟨3, none⟩

/-- Witness handler under an unrelated key. -/
def hD : ActionWithEvent := ⟨4, none⟩

/-- Witness listener table: two handlers under `"s.k"`, one under `"any"`,
one under an unrelated key. -/
def tableW : List (String × List ActionWithEvent) :=
  [("s.k", [hA, hB]), ("any", [hC]), ("other.x", [hD])]

/-- Witness event with identity `"s.k"`. -/
def evW : GoEvent := ⟨"s", "k"⟩

/-- Witness container carrying the witness listener table. -/
def eventContainerW : serviceContainer :=
  { info := { name := "w", addr := "app.w2", running := true, errs := [],
              startedAt := 0, stoppedAt := 0 },
    svc := { name := "w", initializeAction := none, startAction := none,
             stopAction := none, listeners := some tableW, cronsetup := false },
    cancelSet := true, cronPresent := false }

/-- Witness for C5 on a table with two matching groups and one non-matching
group; all three matching handlers run (ids 1, 2, 3) although handler 2
fails. -/
theorem handle_event_invokes_all_witness :
    (eventContainerW.svc.listeners = some tableW) ∧
    ((tableW.map Prod.fst).Nodup) ∧
    ((lidOf evW, [hA, hB]) ∈ tableW) ∧
    (("any", [hC]) ∈ tableW) ∧
    ((eventContainerW.handleEvent evW 5).1 = invokedOf (lidOf evW) tableW ∧
     (eventContainerW.handleEvent evW 5).1.length = [hA, hB].length + [hC].length ∧
     (eventContainerW.handleEvent evW 5).2.errs
       = eventContainerW.info.errs
           ++ errEntries 5 (matchedHandlers (lidOf evW) tableW)) ∧
    ((eventContainerW.handleEvent evW 5).1 = [1, 2, 3]) := by
  have hmem1 : (lidOf evW, [hA, hB]) ∈ tableW := by
    have hl : lidOf evW = "s.k" := rfl
    rw [hl]
    exact List.mem_cons_self _ _
  have hmem2 : ("any", [hC]) ∈ tableW :=
    List.mem_cons_of_mem _ (List.mem_cons_self _ _)
  have hnd : (tableW.map Prod.fst).Nodup := by decide
  exact ⟨rfl, hnd, hmem1, hmem2,
    handle_event_invokes_all eventContainerW evW 5 tableW [hA, hB] [hC] rfl hnd
      hmem1 hmem2, rfl⟩

/-! ## Cron (from `Cron`, `newCron`, `Cron.Job`, `Cron.Start`, `Cron.Stop`) -/

/-- Cron wrapper state: the list of scheduler-assigned job ids, in
registration order.  The external scheduler's `AddFunc` outcome is supplied
as an (id, error) pair, and its entry table as a lookup from id to the
registered job (none when the id has no entry). -/
structure Cron where
  jobIDs : List Nat

/-- Source `Cron.Job`: registers the callback with the external scheduler and
appends the returned id to `jobIDs` before checking the registration error;
a failure is only logged. -/
def Cron.Job (cs : Cron) (addResult : Nat × Option GoErr) : Cron :=
  { cs with jobIDs := cs.jobIDs ++ [addResult.1] }

/-- Source `Cron.Start`: when `app.cron.on.service.start` is set, runs once every
registered job id whose scheduler entry still has a job, skipping ids with a
missing entry; then starts the scheduler and returns nil. -/
def Cron.Start (cs : Cron) (onServiceStart : Bool) (entryJob : Nat → Option Nat) :
    List Nat × Option GoErr :=
  (if onServiceStart then cs.jobIDs.filterMap entryJob else [], none)

/-- C10: `Cron.Job` grows `jobIDs` by exactly one entry whether or not the
scheduler rejected the registration, and `Cron.Start`'s run-once path
iterates over the ids of failed registrations as well, guarded only by the
missing-entry check. -/
theorem cron_job_appends_before_error_check (cs : Cron) (id : Nat) (e : GoErr)
    (entryJob : Nat → Option Nat) :
    ((cs.Job (id, some e)).jobIDs = cs.jobIDs ++ [id]) ∧
    ((cs.Job (id, none)).jobIDs = cs.jobIDs ++ [id]) ∧
    ((cs.Job (id, some e)).jobIDs.length = cs.jobIDs.length + 1) ∧
    (entryJob id = none →
      (Cron.Start (cs.Job (id, some e)) true entryJob).1
        = (Cron.Start cs true entryJob).1) ∧
    (∀ j, entryJob id = some j →
      (Cron.Start (cs.Job (id, some e)) true entryJob).1
        = (Cron.Start cs true entryJob).1 ++ [j]) := by
  refine ⟨rfl, rfl, by simp [Cron.Job], ?_, ?_⟩
  · intro h
    simp [Cron.Start, Cron.Job, List.filterMap_append, h]
  · intro j h
    simp [Cron.Start, Cron.Job, List.filterMap_append, h]

/-- A cron with one registered job, used as witness input. -/
def cronW : Cron := { jobIDs := [1] }

/-- An entry table in which id 2 has no entry (failed registration). -/
def entryA : Nat → Option Nat := fun n => if n = 1 then some 10 else none

/-- An entry table in which id 2 has a job. -/
def entryB : Nat → Option Nat := fun n => if n = 1 then some 10 else some 7

/-- Witness for C10: a failed registration still appends its id; `Start`
skips it when the entry is missing and runs it when the entry exists. -/
theorem cron_job_appends_before_error_check_witness :
    ((cronW.Job (2, some (GoErr.base "bad expr"))).jobIDs = cronW.jobIDs ++ [2]) ∧
    (entryA 2 = none) ∧
    ((Cron.Start (cronW.Job (2, some (GoErr.base "bad expr"))) true entryA).1
        = (Cron.Start cronW true entryA).1) ∧
    (entryB 2 = some 7) ∧
    ((Cron.Start (cronW.Job (2, some (GoErr.base "bad expr"))) true entryB).1
        = (Cron.Start cronW true entryB).1 ++ [7]) :=
  ⟨(cron_job_appends_before_error_check cronW 2 (GoErr.base "bad expr") entryA).1,
   rfl,
   (cron_job_appends_before_error_check cronW 2 (GoErr.base "bad expr") entryA).2.2.2.1 rfl,
   rfl,
   (cron_job_appends_before_error_check cronW 2 (GoErr.base "bad expr") entryB).2.2.2.2 7 rfl⟩
